import Mathlib

/-!
Verification of the multi-source record reconciliation and idempotent
persistence pipeline of `academic-language-analysis`
(`data_cleaning/lib/util.py` and `data_cleaning/get_papers.py`).

Python's loosely-typed JSON values are embedded as `PyVal`; Python floats
are modelled as rationals; operations that can raise in Python return
`Except PyErr`.  Functions keep the source's names.
-/

/-- Python exception kinds that the embedded code can raise. -/
inductive PyErr where
  | valueError
  | typeError
  | attributeError
  | keyError
  | indexError
  deriving DecidableEq, Repr

/-- A loosely-typed Python/JSON value.  Dicts are insertion-ordered
association lists with string keys (as produced by JSON parsing);
floats are modelled as rationals. -/
inductive PyVal where
  | none
  | bool (b : Bool)
  | int (n : ℤ)
  | float (q : ℚ)
  | str (s : String)
  | list (l : List PyVal)
  | dict (d : List (String × PyVal))
  deriving Repr

mutual

/-- Decidable equality on `PyVal` (written by hand: automatic deriving
does not handle the nesting through `List`). -/
def pyValDecEq : (a b : PyVal) → Decidable (a = b)
  | .none, .none => isTrue rfl
  | .bool b1, .bool b2 =>
      match decEq b1 b2 with
      | isTrue h => isTrue (by rw [h])
      | isFalse h => isFalse (fun hh => h (by cases hh; rfl))
  | .int n1, .int n2 =>
      match decEq n1 n2 with
      | isTrue h => isTrue (by rw [h])
      | isFalse h => isFalse (fun hh => h (by cases hh; rfl))
  | .float q1, .float q2 =>
      match decEq q1 q2 with
      | isTrue h => isTrue (by rw [h])
      | isFalse h => isFalse (fun hh => h (by cases hh; rfl))
  | .str s1, .str s2 =>
      match decEq s1 s2 with
      | isTrue h => isTrue (by rw [h])
      | isFalse h => isFalse (fun hh => h (by cases hh; rfl))
  | .list l1, .list l2 =>
      match pyListDecEq l1 l2 with
      | isTrue h => isTrue (by rw [h])
      | isFalse h => isFalse (fun hh => h (by cases hh; rfl))
  | .dict d1, .dict d2 =>
      match pyDictDecEq d1 d2 with
      | isTrue h => isTrue (by rw [h])
      | isFalse h => isFalse (fun hh => h (by cases hh; rfl))
  | .none, .bool _ | .none, .int _ | .none, .float _ | .none, .str _
  | .none, .list _ | .none, .dict _
  | .bool _, .none | .bool _, .int _ | .bool _, .float _ | .bool _, .str _
  | .bool _, .list _ | .bool _, .dict _
  | .int _, .none | .int _, .bool _ | .int _, .float _ | .int _, .str _
  | .int _, .list _ | .int _, .dict _
  | .float _, .none | .float _, .bool _ | .float _, .int _ | .float _, .str _
  | .float _, .list _ | .float _, .dict _
  | .str _, .none | .str _, .bool _ | .str _, .int _ | .str _, .float _
  | .str _, .list _ | .str _, .dict _
  | .list _, .none | .list _, .bool _ | .list _, .int _ | .list _, .float _
  | .list _, .str _ | .list _, .dict _
  | .dict _, .none | .dict _, .bool _ | .dict _, .int _ | .dict _, .float _
  | .dict _, .str _ | .dict _, .list _ => isFalse (by intro hh; cases hh)

/-- Decidable equality on lists of `PyVal`. -/
def pyListDecEq : (a b : List PyVal) → Decidable (a = b)
  | [], [] => isTrue rfl
  | [], _ :: _ => isFalse (by intro hh; cases hh)
  | _ :: _, [] => isFalse (by intro hh; cases hh)
  | x :: xs, y :: ys =>
      match pyValDecEq x y, pyListDecEq xs ys with
      | isTrue h1, isTrue h2 => isTrue (by rw [h1, h2])
      | isFalse h1, _ => isFalse (fun hh => h1 (by cases hh; rfl))
      | _, isFalse h2 => isFalse (fun hh => h2 (by cases hh; rfl))

/-- Decidable equality on dict payloads. -/
def pyDictDecEq : (a b : List (String × PyVal)) → Decidable (a = b)
  | [], [] => isTrue rfl
  | [], _ :: _ => isFalse (by intro hh; cases hh)
  | _ :: _, [] => isFalse (by intro hh; cases hh)
  | (k1, v1) :: xs, (k2, v2) :: ys =>
      match decEq k1 k2, pyValDecEq v1 v2, pyDictDecEq xs ys with
      | isTrue h0, isTrue h1, isTrue h2 => isTrue (by rw [h0, h1, h2])
      | isFalse h0, _, _ => isFalse (fun hh => h0 (by cases hh; rfl))
      | _, isFalse h1, _ => isFalse (fun hh => h1 (by cases hh; rfl))
      | _, _, isFalse h2 => isFalse (fun hh => h2 (by cases hh; rfl))

end

instance : DecidableEq PyVal := pyValDecEq

/-- A Python dict payload (the shape of `work`, `crossref`, `unpaywall`). -/
abbrev PyDict := List (String × PyVal)

/-- Python truthiness (`bool(v)`). -/
def pyTruthy : PyVal → Bool
  | .none => false
  | .bool b => b
  | .int n => n != 0
  | .float q => q != 0
  | .str s => s != ""
  | .list l => !l.isEmpty
  | .dict d => !d.isEmpty

/-- `d.get(k, dflt)` on a dict payload. -/
def dictGetD (d : PyDict) (k : String) (dflt : PyVal) : PyVal :=
  match d.find? (fun e => e.1 == k) with
  | some e => e.2
  | Option.none => dflt

/-- `d.get(k)` on a dict payload (default `None`). -/
def dictGet (d : PyDict) (k : String) : PyVal :=
  dictGetD d k .none

/-- Python `a or b` (value-returning, left-biased on truthiness). -/
def pyOr (a b : PyVal) : PyVal :=
  if pyTruthy a then a else b

/-- `v.get(k)` where `v` is an arbitrary value: succeeds only on dicts,
otherwise raises `AttributeError` as Python does. -/
def aget (v : PyVal) (k : String) : Except PyErr PyVal :=
  match v with
  | .dict d => .ok (dictGet d k)
  | _ => .error .attributeError

/-- `v.get(k, dflt)` on an arbitrary value. -/
def agetD (v : PyVal) (k : String) (dflt : PyVal) : Except PyErr PyVal :=
  match v with
  | .dict d => .ok (dictGetD d k dflt)
  | _ => .error .attributeError

/-- `for x in v`: lists yield their elements, strings their characters
(as 1-character strings), dicts their keys; other values raise
`TypeError`. -/
def pyIter : PyVal → Except PyErr (List PyVal)
  | .list l => .ok l
  | .str s => .ok (s.toList.map (fun c => .str (String.mk [c])))
  | .dict d => .ok (d.map (fun e => PyVal.str e.1))
  | _ => .error .typeError

/-- `v[0]`: head of a list / first character of a string; dicts raise
`KeyError` (string keys, no key `0`), other values `TypeError`, the
empty list/string `IndexError`. -/
def pyIndex0 : PyVal → Except PyErr PyVal
  | .list (x :: _) => .ok x
  | .list [] => .error .indexError
  | .str s =>
      match s.toList with
      | c :: _ => .ok (.str (String.mk [c]))
      | [] => .error .indexError
  | .dict _ => .error .keyError
  | _ => .error .typeError

/-! ### Numeric coercions (`int(x)`, `float(x)`) -/

/-- Digits of an ASCII numeral string, as a natural number; `Option.none`
if empty or containing a non-digit. -/
def digitsToNat : List Char → Option ℕ
  | [] => Option.none
  | [c] => if c.isDigit then some (c.toNat - '0'.toNat) else Option.none
  | c :: rest =>
      if c.isDigit then
        (digitsToNat rest).map (fun n => (c.toNat - '0'.toNat) * 10 ^ rest.length + n)
      else Option.none

/-- ASCII whitespace, as recognised by Python's `str.strip()`. -/
def isPySpace (c : Char) : Bool :=
  c = ' ' || c = '\t' || c = '\n' || c = '\r' || c = '\x0b' || c = '\x0c'

/-- Strip leading whitespace. -/
def pyStripL (l : List Char) : List Char :=
  l.dropWhile isPySpace

/-- `str.strip()`: strip whitespace at both ends. -/
def pyStrip (l : List Char) : List Char :=
  ((l.dropWhile isPySpace).reverse.dropWhile isPySpace).reverse

/-- Python `int(s)` on a string: optional sign and decimal digits, with
surrounding whitespace allowed (digit-group underscores are not
modelled). -/
def parseIntPy (s : String) : Option ℤ :=
  match pyStrip s.toList with
  | '-' :: rest => (digitsToNat rest).map (fun n => -(n : ℤ))
  | '+' :: rest => (digitsToNat rest).map (fun n => (n : ℤ))
  | rest => (digitsToNat rest).map (fun n => (n : ℤ))

/-- Unsigned part of Python `float(s)`: digits, an optional dot, digits;
at least one digit overall. -/
def parseFracPyCore (l : List Char) : Option ℚ :=
  match l.span Char.isDigit with
  | (intPart, []) =>
      (digitsToNat intPart).map (fun n => (n : ℚ))
  | (intPart, '.' :: fracPart) =>
      if fracPart.all Char.isDigit ∧ (intPart ≠ [] ∨ fracPart ≠ []) then
        some ((((digitsToNat intPart).getD 0 : ℚ)) +
          ((digitsToNat fracPart).getD 0 : ℚ) / (10 ^ fracPart.length : ℚ))
      else Option.none
  | _ => Option.none

/-- Python `float(s)` on a string (scientific notation and `inf`/`nan`
are not modelled; they do not occur in the repository's data paths). -/
def parseFloatPy (s : String) : Option ℚ :=
  match pyStrip s.toList with
  | '-' :: rest => (parseFracPyCore rest).map (fun q => -q)
  | '+' :: rest => parseFracPyCore rest
  | rest => parseFracPyCore rest

/-- Python `int(v)`: truncation toward zero for floats, `ValueError` for
unparsable strings, `TypeError` for `None`/lists/dicts. -/
def pyInt : PyVal → Except PyErr ℤ
  | .bool b => .ok (if b then 1 else 0)
  | .int n => .ok n
  | .float q => .ok (q.num.tdiv (q.den : ℤ))
  | .str s =>
      match parseIntPy s with
      | some n => .ok n
      | Option.none => .error .valueError
  | .none => .error .typeError
  | .list _ => .error .typeError
  | .dict _ => .error .typeError

/-- Python `float(v)`. -/
def pyFloat : PyVal → Except PyErr ℚ
  | .bool b => .ok (if b then 1 else 0)
  | .int n => .ok (n : ℚ)
  | .float q => .ok q
  | .str s =>
      match parseFloatPy s with
      | some q => .ok q
      | Option.none => .error .valueError
  | .none => .error .typeError
  | .list _ => .error .typeError
  | .dict _ => .error .typeError

/-! ### String helpers for `str()` and `str.replace` -/

mutual

/-- Python `repr(v)` (approximated: string quoting is unescaped and float
rendering is exact-rational; used only to render f-string interpolations
of non-string values). -/
def pyRepr : PyVal → String
  | .none => "None"
  | .bool true => "True"
  | .bool false => "False"
  | .int n => toString n
  | .float q => if q.den = 1 then toString q.num ++ ".0" else toString q
  | .str s => "'" ++ s ++ "'"
  | .list l => "[" ++ pyReprList l ++ "]"
  | .dict d => "\x7b" ++ pyReprDict d ++ "\x7d"

/-- Comma-joined reprs of list elements. -/
def pyReprList : List PyVal → String
  | [] => ""
  | [x] => pyRepr x
  | x :: xs => pyRepr x ++ ", " ++ pyReprList xs

/-- Comma-joined reprs of dict entries. -/
def pyReprDict : List (String × PyVal) → String
  | [] => ""
  | [(k, v)] => "'" ++ k ++ "': " ++ pyRepr v
  | (k, v) :: xs => "'" ++ k ++ "': " ++ pyRepr v ++ ", " ++ pyReprDict xs

end

/-- Python `str(v)` as used in f-string interpolation. -/
def pyStr : PyVal → String
  | .str s => s
  | v => pyRepr v

/-- `s.replace(p0 :: ps, "")`: delete every occurrence of the pattern,
scanning left to right over non-overlapping occurrences exactly as
Python's `str.replace` does.  The extra fuel argument (seeded with the
list's length, which each step strictly decreases) keeps the recursion
structural, so that concrete calls reduce inside the kernel. -/
def delOccAux (p0 : Char) (ps : List Char) : ℕ → List Char → List Char
  | _, [] => []
  | 0, l => l
  | fuel + 1, c :: rest =>
      if (p0 :: ps).isPrefixOf (c :: rest) then
        delOccAux p0 ps fuel (rest.drop ps.length)
      else c :: delOccAux p0 ps fuel rest

/-- `s.replace(p, "")` for a nonempty pattern `p`. -/
def delOcc (p : List Char) (l : List Char) : List Char :=
  match p with
  | [] => l
  | p0 :: ps => delOccAux p0 ps l.length l

/-- Does `p` occur as a contiguous substring of `l`? -/
def containsSub (p : List Char) : List Char → Bool
  | [] => false
  | c :: rest => p.isPrefixOf (c :: rest) || containsSub p rest

/-! ### `util.py`: impact scoring, status, identifier normalization -/

/-- The age computation inside `impact_score`: coerce the year with
`int(...)` under `try/except`, then `if year and year <= current_year:
age = max(1, current_year - year + 1) else: age = 1`.  Note the
truthiness test `year`, which sends year `0` to the `else` branch. -/
def pyAge (current_year : ℤ) (publication_year : PyVal) : ℤ :=
  match pyInt publication_year with
  | .error _ => 1
  | .ok y => if y ≠ 0 ∧ y ≤ current_year then max 1 (current_year - y + 1) else 1

/-- `impact_score(citations, publication_year)`: citations per year since
publication.  `datetime.now().year` is passed explicitly as
`current_year`. -/
def impact_score (current_year : ℤ) (citations publication_year : PyVal) : ℚ :=
  let age := pyAge current_year publication_year
  let citations_val : ℚ :=
    match pyFloat citations with
    | .ok q => q
    | .error _ => 0
  citations_val / (age : ℚ)

/-- `classify_impact(score)`. -/
def classify_impact (score : ℚ) : String :=
  if score > 5 then "HIGH"
  else if score > 1 then "MODERATE"
  else "LOW"

/-- `determine_processing_status(pdf_url)`. -/
def determine_processing_status (pdf_url : PyVal) : String :=
  if pyTruthy pdf_url then "pending_download" else "no_pdf_available"

/-- `normalize_doi(doi)`: falsy input returns `None`; otherwise
`doi.lower().strip()` followed by deleting every occurrence of
`"https://doi.org/"` and then of `"http://doi.org/"`.  A truthy
non-string raises `AttributeError` at `.lower()`. -/
def normalize_doi (doi : PyVal) : Except PyErr PyVal :=
  if pyTruthy doi = false then .ok .none
  else
    match doi with
    | .str s =>
        let t := pyStrip (s.toList.map Char.toLower)
        .ok (.str (String.mk
          (delOcc "http://doi.org/".toList (delOcc "https://doi.org/".toList t))))
    | _ => .error .attributeError

/-- `_safe_get(data, *keys)`: walk nested dicts, returning `None`
(the call sites pass no default) whenever a step is not a dict or a key
is missing. -/
def _safe_get : PyVal → List String → PyVal
  | d, [] => d
  | .dict entries, k :: ks => _safe_get (dictGet entries k) ks
  | _, _ :: _ => .none

/-! ### `util.py`: abstract reconstruction and author extraction -/

/-- A sort key for an inverted-index position, mirroring how Python's
`sort` compares the keys `x[0]`: ints, floats and bools are mutually
comparable numbers; any other position value makes the sort raise
`TypeError`.  (A homogeneous list of exotic comparable positions, e.g.
all-string positions, is not modelled and is mapped to `TypeError`;
no claim depends on it.) -/
def posKey : PyVal → Except PyErr ℚ
  | .int n => .ok (n : ℚ)
  | .float q => .ok q
  | .bool b => .ok (if b then 1 else 0)
  | _ => .error .typeError

/-- Stable insertion of a keyed pair: inserted after strictly smaller
keys and before equal ones, matching the stability of Python's sort. -/
def insPair (x : ℚ × String) : List (ℚ × String) → List (ℚ × String)
  | [] => [x]
  | y :: ys => if y.1 < x.1 then y :: insPair x ys else x :: y :: ys

/-- Stable sort of (position, word) pairs by position, ascending. -/
def sortPairs : List (ℚ × String) → List (ℚ × String)
  | [] => []
  | x :: xs => insPair x (sortPairs xs)

/-- `_reconstruct_abstract(inverted_index)`: falsy input gives `""`;
otherwise one `(pos, word)` pair per occurrence, in dict-iteration order,
sorted ascending by position (stably) and joined with single spaces.
A truthy non-dict raises `AttributeError` at `.items()`. -/
def _reconstruct_abstract (inverted_index : PyVal) : Except PyErr String :=
  if pyTruthy inverted_index = false then .ok ""
  else
    match inverted_index with
    | .dict entries => do
        let pairs ← entries.foldlM
          (fun acc e => do
            let elems ← pyIter e.2
            let keys ← elems.mapM posKey
            pure (acc ++ keys.map (fun q => (q, e.1))))
          ([] : List (ℚ × String))
        pure (String.intercalate " " ((sortPairs pairs).map (fun p => p.2)))
    | _ => .error .attributeError

/-- The body of the `authorships` loop in `_extract_authors`: returns the
`(name, affiliation)` pair appended for this authorship, if any.  The
affiliation lookup runs before the `if name:` test, as in the source. -/
def processAuthorship (authorship : PyVal) : Except PyErr (Option (PyVal × PyVal)) := do
  let ai ← aget authorship "author"
  let author_info := pyOr ai (.dict [])
  let nmRaw ← aget author_info "display_name"
  let name := pyOr nmRaw (.str "")
  let instRaw ← aget authorship "institutions"
  let institutions := pyOr instRaw (.list [])
  let affiliation ←
    if pyTruthy institutions then do
      let first ← pyIndex0 institutions
      aget first "display_name"
    else pure (.str "")
  if pyTruthy name then pure (some (name, pyOr affiliation (.str "")))
  else pure Option.none

/-- The body of the Crossref fallback loop in `_extract_authors`. -/
def processCrossrefAuthor (a : PyVal) : Except PyErr (Option (PyVal × PyVal)) := do
  let given ← agetD a "given" (.str "")
  let family ← agetD a "family" (.str "")
  let name := String.mk (pyStrip (pyStr given ++ " " ++ pyStr family).toList)
  let affsRaw ← aget a "affiliation"
  let affs := pyOr affsRaw (.list [])
  let affiliation ←
    if pyTruthy affs then do
      let first ← pyIndex0 affs
      aget first "name"
    else pure (.str "")
  if name = "" then pure Option.none
  else pure (some (.str name, pyOr affiliation (.str "")))

/-- `_extract_authors(work, crossref)`: authors as `(name, affiliation)`
pairs from the primary `authorships`, falling back to Crossref's
`author` list when empty and `crossref` is truthy. -/
def _extract_authors (work : PyDict) (crossref : PyDict) :
    Except PyErr (List (PyVal × PyVal)) := do
  let base := pyOr (dictGet work "authorships") (.list [])
  let elems ← pyIter base
  let opts ← elems.mapM processAuthorship
  let authors := opts.filterMap id
  if authors.isEmpty ∧ pyTruthy (.dict crossref) then do
    let cbase := pyOr (dictGet crossref "author") (.list [])
    let celems ← pyIter cbase
    let copts ← celems.mapM processCrossrefAuthor
    pure (copts.filterMap id)
  else
    pure authors

/-! ### `util.py`: the document builder -/

/-- The `journal` sub-document. -/
structure JournalInfo where
  name : PyVal
  issn : PyVal
  deriving Repr, DecidableEq

/-- The `impact` sub-document. -/
structure ImpactInfo where
  citation_count : ℤ
  citations_per_year : ℚ
  classification : String
  influential_citations : ℤ
  deriving Repr, DecidableEq

/-- The `open_access` sub-document. -/
structure OpenAccessInfo where
  is_oa : Bool
  pdf_url : PyVal
  status : PyVal
  deriving Repr, DecidableEq

/-- The `content` sub-document (`local_path` is always `None`). -/
structure ContentInfo where
  abstract : PyVal
  full_text_extracted : Bool
  local_path : PyVal
  deriving Repr, DecidableEq

/-- The document returned by `build_paper_document`, one field per key of
the returned dict. -/
structure PaperRecord where
  _id : PyVal
  title : PyVal
  year : Option ℤ
  authors : List (PyVal × PyVal)
  journal : JournalInfo
  impact : ImpactInfo
  open_access : OpenAccessInfo
  content : ContentInfo
  processing_status : String
  tags : List PyVal
  deriving Repr, DecidableEq

/-- `f"auto:\x7btitle[:80]\x7d"`: slice the title to 80 items and
interpolate.  Slicing raises `TypeError` on unsliceable values. -/
def autoWorkId (title : PyVal) : Except PyErr PyVal :=
  match title with
  | .str s => .ok (.str ("auto:" ++ String.mk (s.toList.take 80)))
  | .list l => .ok (.str ("auto:" ++ pyRepr (.list (l.take 80))))
  | _ => .error .typeError

/-- The `journal_name` fallback chain (lines 167-171): `host_venue`
display name, else `primary_location.source` display name, else
`(crossref.get('container-title') or [None])[0]`, whose indexing can
raise. -/
def journal_name_step (work crossref : PyDict) : Except PyErr PyVal :=
  let a := _safe_get (.dict work) ["host_venue", "display_name"]
  if pyTruthy a then pure a
  else
    let b := _safe_get (.dict work) ["primary_location", "source", "display_name"]
    if pyTruthy b then pure b
    else pyIndex0 (pyOr (dictGet crossref "container-title") (.list [.none]))

/-- The `issn` fallback chain (lines 172-176). -/
def issn_step (work crossref : PyDict) : Except PyErr PyVal :=
  let a := _safe_get (.dict work) ["host_venue", "issn_l"]
  if pyTruthy a then pure a
  else
    let b := _safe_get (.dict work) ["primary_location", "source", "issn_l"]
    if pyTruthy b then pure b
    else pyIndex0 (pyOr (dictGet crossref "ISSN") (.list [.none]))

/-- The `abstract` fallback chain (lines 192-197):
`work.get('abstract') or _reconstruct_abstract(...) or
crossref.get('abstract') or ""`, with the reconstruction evaluated only
when the plain abstract is falsy. -/
def abstract_step (work crossref : PyDict) : Except PyErr PyVal :=
  let a := dictGet work "abstract"
  if pyTruthy a then pure a
  else do
    let rebuilt ← _reconstruct_abstract (dictGet work "abstract_inverted_index")
    if rebuilt ≠ "" then pure (.str rebuilt)
    else
      let c := dictGet crossref "abstract"
      if pyTruthy c then pure c else pure (.str "")

/-- The `influential` computation (lines 202-205): the `isinstance`
guard means a truthy non-list silently yields 0; a nonempty list's last
entry is `.get('cited_by_count', 0)`-ed and `int(...)`-coerced. -/
def influential_step (counts_by_year : PyVal) : Except PyErr ℤ :=
  match counts_by_year with
  | .list [] => pure 0
  | .list (x :: xs) => do
      let v ← agetD ((x :: xs).getLast (List.cons_ne_nil x xs)) "cited_by_count" (.int 0)
      pyInt v
  | _ => pure 0

/-- The `tags` comprehension (line 209): display names of concepts,
keeping only truthy values. -/
def tags_step (work : PyDict) : Except PyErr (List PyVal) := do
  let celems ← pyIter (pyOr (dictGet work "concepts") (.list []))
  let vals ← celems.mapM (fun c => aget c "display_name")
  pure (vals.filter pyTruthy)

/-- The `work_id` assignment (line 211):
`openalex_id or doi or f"auto:..."`. -/
def work_id_step (openalex_id doi title : PyVal) : Except PyErr PyVal :=
  if pyTruthy openalex_id then pure openalex_id
  else if pyTruthy doi then pure doi
  else autoWorkId title

/-- The `"year"` field of the returned dict (line 216):
`int(year) if year else None`. -/
def year_field_step (year : PyVal) : Except PyErr (Option ℤ) :=
  if pyTruthy year then do
    let n ← pyInt year
    pure (some n)
  else pure Option.none

/-- `build_paper_document(work, crossref, unpaywall)`, with
`datetime.now().year` passed explicitly as `current_year`.  The callers
always pass dicts (or the empty dict produced by the fetchers), on which
`crossref = crossref or ...` is the identity, so the two secondary
payloads are taken directly as dicts.  Each step appears in the source's
evaluation order, so the error returned (if any) is the one Python would
raise first. -/
def build_paper_document (current_year : ℤ) (work crossref unpaywall : PyDict) :
    Except PyErr PaperRecord := do
  let title := pyOr (dictGet work "title") (.str "<no title>")
  let citations := pyOr (dictGetD work "cited_by_count" (.int 0)) (.int 0)
  let year := dictGet work "publication_year"
  let doi ← normalize_doi (dictGet work "doi")
  let openalex_id := dictGet work "id"
  let authors ← _extract_authors work crossref
  let journal_name ← journal_name_step work crossref
  let issn ← issn_step work crossref
  let is_oa := pyTruthy (dictGetD work "is_oa" (.bool false)) ||
               pyTruthy (dictGetD unpaywall "is_oa" (.bool false))
  let pdf_url :=
    pyOr (_safe_get (.dict work) ["best_oa_location", "url_for_pdf"])
      (pyOr (_safe_get (.dict work) ["primary_location", "pdf_url"])
        (pyOr (_safe_get (.dict unpaywall) ["best_oa_location", "url_for_pdf"])
          (dictGet unpaywall "url")))
  let oa_status :=
    pyOr (_safe_get (.dict work) ["best_oa_location", "license"])
      (pyOr (_safe_get (.dict unpaywall) ["best_oa_location", "license"]) (.str ""))
  let abstract ← abstract_step work crossref
  let score := impact_score current_year citations year
  let classification := classify_impact score
  let influential ← influential_step (pyOr (dictGet work "counts_by_year") (.list []))
  let processing_status := determine_processing_status pdf_url
  let tags ← tags_step work
  let work_id ← work_id_step openalex_id doi title
  let year_out ← year_field_step year
  let citation_count ← pyInt citations
  pure ⟨work_id, title, year_out, authors,
    ⟨pyOr journal_name (.str ""), pyOr issn (.str "")⟩,
    ⟨citation_count, score, classification, influential⟩,
    ⟨is_oa, pyOr pdf_url (.str ""), oa_status⟩,
    ⟨abstract, false, .none⟩,
    processing_status, tags⟩

/-! ### `get_papers.py`: the repository upsert -/

/-- Result of a `replace_one(..., upsert=True)` call. -/
structure ReplaceResult where
  upserted_id : Option PyVal
  modified_count : ℕ
  deriving Repr, DecidableEq

/-- The document store: identifier-keyed documents. -/
abbrev Store := List (PyVal × PyDict)

/-- Modelled from the spec: the document store collaborator's
identifier-keyed upsert (spec §4.5/§6, `coll.replace_one(filter, doc,
upsert=True)` is library code outside the repository): insert if the
identifier is absent (reporting `upserted_id`), full-replace if present
(reporting a modified count of 1). -/
def replace_one (store : Store) (idv : PyVal) (doc : PyDict) : Store × ReplaceResult :=
  if store.any (fun e => e.1 == idv) then
    (store.map (fun e => if e.1 == idv then (idv, doc) else e), ⟨Option.none, 1⟩)
  else
    (store ++ [(idv, doc)], ⟨some idv, 0⟩)

/-- `upsert_to_db(papers)` from `get_papers.py`, with the store passed
explicitly and the store's per-record failures modelled by the
predicate `raisesOn` (a raise is caught, printed, and the loop
continues).  Documents whose `_id` is falsy are skipped by
`if not _id: continue`.  Returns the final store and the
`(inserted, updated)` counters — the function's whole report. -/
def upsert_to_db (raisesOn : PyVal → Bool) (store : Store) (papers : List PyDict) :
    Store × ℕ × ℕ :=
  papers.foldl
    (fun acc doc =>
      let _id := dictGet doc "_id"
      if pyTruthy _id = false then acc
      else if raisesOn _id then acc
      else
        let r := replace_one acc.1 _id doc
        if r.2.upserted_id.isSome then (r.1, acc.2.1 + 1, acc.2.2)
        else if r.2.modified_count ≠ 0 then (r.1, acc.2.1, acc.2.2 + 1)
        else (r.1, acc.2.1, acc.2.2))
    (store, 0, 0)

/-- The number of records of a batch on which the store raises (each
one is printed inside the `except` arm, but counted nowhere). -/
def failedCount (raisesOn : PyVal → Bool) (papers : List PyDict) : ℕ :=
  (papers.filter (fun doc =>
    pyTruthy (dictGet doc "_id") && raisesOn (dictGet doc "_id"))).length

/-- Number of documents a store holds under a given identifier. -/
def countKey (store : Store) (idv : PyVal) : ℕ :=
  (store.filter (fun e => e.1 == idv)).length

/-! ### Spec-side definitions (for refinement claims) -/

/-- Modelled from the spec: the age the Impact Scorer is claimed to use
(§4.2): exactly 1 when the year is missing, non-numeric or in the
future, else `max(1, currentYear - year + 1)`. -/
def spec_age (current_year : ℤ) (publication_year : PyVal) : ℤ :=
  match pyInt publication_year with
  | .error _ => 1
  | .ok y => if y ≤ current_year then max 1 (current_year - y + 1) else 1

/-- Rank of a classification tier, for monotonicity statements:
LOW < MODERATE < HIGH. -/
def classRank (c : String) : ℕ :=
  if c = "HIGH" then 2 else if c = "MODERATE" then 1 else 0

/-! ### Documented field shapes (the domain on which the builder is total) -/

/-- A value that is a string or falsy (absent, `None`, `""`, ...). -/
def isStrOrFalsy (v : PyVal) : Bool :=
  !pyTruthy v ||
    match v with
    | .str _ => true
    | _ => false

/-- A numeric value (int, float or bool), as accepted by `int(...)`. -/
def isNumeric (v : PyVal) : Bool :=
  match v with
  | .int _ => true
  | .float _ => true
  | .bool _ => true
  | _ => false

/-- Numeric or falsy. -/
def isNumOrFalsy (v : PyVal) : Bool :=
  !pyTruthy v || isNumeric v

/-- A value usable as `v[0].get(...)` after an `if v:` guard: falsy, or
a list whose first element is a dict. -/
def headDictOK (v : PyVal) : Bool :=
  !pyTruthy v ||
    match v with
    | .list (.dict _ :: _) => true
    | _ => false

/-- A dict value or a falsy one. -/
def dictOrFalsy (v : PyVal) : Bool :=
  !pyTruthy v ||
    match v with
    | .dict _ => true
    | _ => false

/-- One OpenAlex authorship entry: a dict whose `author` is a dict or
falsy and whose `institutions` is falsy or a list headed by a dict. -/
def authorshipOK (a : PyVal) : Bool :=
  match a with
  | .dict es =>
      dictOrFalsy (dictGet es "author") && headDictOK (dictGet es "institutions")
  | _ => false

/-- The `authorships` field: falsy, or a list of well-shaped entries. -/
def authorshipsOK (v : PyVal) : Bool :=
  !pyTruthy v ||
    match v with
    | .list es => es.all authorshipOK
    | _ => false

/-- One Crossref author entry: a dict whose `affiliation` is falsy or a
list headed by a dict. -/
def crAuthorOK (a : PyVal) : Bool :=
  match a with
  | .dict es => headDictOK (dictGet es "affiliation")
  | _ => false

/-- Crossref's `author` field: falsy or a list of well-shaped entries. -/
def crAuthorsOK (v : PyVal) : Bool :=
  !pyTruthy v ||
    match v with
    | .list es => es.all crAuthorOK
    | _ => false

/-- A value `v` for which `(v or [None])[0]` cannot raise: falsy, or a
(necessarily nonempty, being truthy) list or string. -/
def idxableOK (v : PyVal) : Bool :=
  !pyTruthy v ||
    match v with
    | .list _ => true
    | .str _ => true
    | _ => false

/-- An inverted-index positions value: a list of numbers. -/
def posListOK (ps : PyVal) : Bool :=
  match ps with
  | .list l => l.all isNumeric
  | _ => false

/-- The `abstract_inverted_index` field: falsy, or a dict mapping words
to lists of numeric positions. -/
def invIdxOK (v : PyVal) : Bool :=
  !pyTruthy v ||
    match v with
    | .dict es => es.all (fun e => posListOK e.2)
    | _ => false

/-- The `counts_by_year` field: anything but a nonempty list whose last
entry is not a dict with a numeric (or absent) `cited_by_count` — the
`isinstance` guard makes every non-list harmless. -/
def countsOK (v : PyVal) : Bool :=
  match v with
  | .list [] => true
  | .list (x :: xs) =>
      (match (x :: xs).getLast (List.cons_ne_nil x xs) with
       | .dict es => isNumeric (dictGetD es "cited_by_count" (.int 0))
       | _ => false)
  | _ => true

/-- The `concepts` field: falsy or a list of dicts. -/
def conceptsOK (v : PyVal) : Bool :=
  !pyTruthy v ||
    match v with
    | .list es =>
        es.all (fun c =>
          match c with
          | .dict _ => true
          | _ => false)
    | _ => false

/-- The documented shape of the three payloads: every field that
`build_paper_document` touches fallibly has its documented type when
present.  (`unpaywall` is accessed only through `_safe_get` and
`dict.get`, which are total, so no condition is needed on it.) -/
def wfPayloads (work crossref _unpaywall : PyDict) : Bool :=
  isStrOrFalsy (dictGet work "doi") &&
  isStrOrFalsy (dictGet work "title") &&
  isNumOrFalsy (dictGet work "publication_year") &&
  isNumOrFalsy (dictGetD work "cited_by_count" (.int 0)) &&
  authorshipsOK (dictGet work "authorships") &&
  crAuthorsOK (dictGet crossref "author") &&
  idxableOK (dictGet crossref "container-title") &&
  idxableOK (dictGet crossref "ISSN") &&
  invIdxOK (dictGet work "abstract_inverted_index") &&
  countsOK (dictGet work "counts_by_year") &&
  conceptsOK (dictGet work "concepts")

/-! ### Helper lemmas -/

theorem exceptBind_ok {α β : Type} (a : α) (f : α → Except PyErr β) :
    ((Except.ok a : Except PyErr α) >>= f) = f a := rfl

theorem exceptBind_ok_iff {α β : Type} (x : Except PyErr α) (f : α → Except PyErr β)
    (b : β) : (x >>= f) = .ok b ↔ ∃ a, x = .ok a ∧ f a = .ok b := by
  cases x <;> simp [Bind.bind, Except.bind]

theorem pyAge_pos (current_year : ℤ) (publication_year : PyVal) :
    0 < pyAge current_year publication_year := by
  unfold pyAge
  cases pyInt publication_year with
  | error e => exact one_pos
  | ok y =>
      simp only []
      split
      · exact lt_of_lt_of_le one_pos (le_max_left 1 _)
      · exact one_pos

theorem impact_score_float (current_year : ℤ) (c : ℚ) (y : PyVal) :
    impact_score current_year (.float c) y = c / (pyAge current_year y : ℚ) := rfl

theorem classify_mono {s t : ℚ} (h : s ≤ t) :
    classRank (classify_impact s) ≤ classRank (classify_impact t) := by
  unfold classify_impact
  split_ifs <;> simp [classRank] <;> linarith

/-- C2: `classify_impact` returns HIGH iff the score exceeds 5, MODERATE
iff it is in (1, 5], LOW otherwise; the boundary scores 5 and 1 fall to
the lower tier; and for a fixed year (and fixed processing year) the
classification of the impact score is non-decreasing in the citation
count. -/
theorem C2_classify_impact_thresholds :
    (∀ s : ℚ,
      (classify_impact s = "HIGH" ↔ 5 < s) ∧
      (classify_impact s = "MODERATE" ↔ 1 < s ∧ s ≤ 5) ∧
      (classify_impact s = "LOW" ↔ s ≤ 1)) ∧
    classify_impact 5 = "MODERATE" ∧
    classify_impact 1 = "LOW" ∧
    ∀ (current_year : ℤ) (y : PyVal) (c c' : ℚ), c ≤ c' →
      classRank (classify_impact (impact_score current_year (.float c) y)) ≤
      classRank (classify_impact (impact_score current_year (.float c') y)) := by
  refine ⟨fun s => ⟨?_, ?_, ?_⟩, by norm_num [classify_impact],
    by norm_num [classify_impact], ?_⟩
  · unfold classify_impact
    split_ifs with h1 h2 <;> simp_all
  · unfold classify_impact
    split_ifs with h1 h2 <;> simp_all
  · unfold classify_impact
    split_ifs with h1 h2 <;> simp_all
    linarith
  · intro cy y c c' hcc
    rw [impact_score_float, impact_score_float]
    refine classify_mono ?_
    have hpos : (0 : ℚ) < ((pyAge cy y : ℤ) : ℚ) := by
      exact_mod_cast pyAge_pos cy y
    exact div_le_div_of_nonneg_right hcc hpos.le

/-- Witness for C2 at concrete inputs: citation count 1 versus 6 in year
2024, processed in 2025. -/
theorem C2_classify_impact_thresholds_witness :
    classRank (classify_impact (impact_score 2025 (.float 1) (.int 2024))) ≤
    classRank (classify_impact (impact_score 2025 (.float 6) (.int 2024))) :=
  C2_classify_impact_thresholds.2.2.2 2025 (.int 2024) 1 6 (by norm_num)

/-- C3 is falsified at publication year 0: the year coerces to the
integer 0, which is not greater than the current year (2025), so the
claim demands age `max(1, 2025 - 0 + 1) = 2026`; but the code's
truthiness test `if year and ...` sends 0 to the `else` branch and uses
age 1, so 10 citations score 10, not 10/2026. -/
theorem C3_counterexample :
    pyInt (.int 0) = .ok 0 ∧
    ((0 : ℤ) ≤ 2025) ∧
    pyAge 2025 (.int 0) = 1 ∧
    spec_age 2025 (.int 0) = 2026 ∧
    pyAge 2025 (.int 0) ≠ spec_age 2025 (.int 0) ∧
    impact_score 2025 (.int 10) (.int 0) = 10 := by
  refine ⟨rfl, by norm_num, rfl, by decide, by decide, by norm_num [impact_score, pyAge, pyFloat, pyInt]⟩

/-- C3 (amended): the scorer uses age exactly 1 when the year is
missing/non-numeric (`int(...)` raises), coerces to 0, or is strictly
greater than the current year; for a year coercing to a nonzero integer
not greater than the current year the age is
`max(1, current_year - year + 1)`; and `citations_per_year` is the
coerced citation count (0 on coercion failure) divided by this age. -/
theorem C3_impact_age_amended (current_year : ℤ) (citations year : PyVal) :
    (∀ e, pyInt year = .error e → pyAge current_year year = 1) ∧
    (pyInt year = .ok 0 → pyAge current_year year = 1) ∧
    (∀ n : ℤ, pyInt year = .ok n → current_year < n → pyAge current_year year = 1) ∧
    (∀ n : ℤ, pyInt year = .ok n → n ≠ 0 → n ≤ current_year →
      pyAge current_year year = max 1 (current_year - n + 1)) ∧
    impact_score current_year citations year =
      (match pyFloat citations with
       | .ok q => q
       | .error _ => 0) / (pyAge current_year year : ℚ) := by
  refine ⟨?_, ?_, ?_, ?_, rfl⟩
  · intro e he
    unfold pyAge
    rw [he]
  · intro h0
    unfold pyAge
    rw [h0]
    simp
  · intro n hn hfut
    unfold pyAge
    rw [hn]
    simp only []
    rw [if_neg]
    intro hcon
    exact absurd hcon.2 (not_le.mpr hfut)
  · intro n hn hnz hle
    unfold pyAge
    rw [hn]
    simp only []
    rw [if_pos ⟨hnz, hle⟩]

/-- Witness for C3 (amended) at year 2020 processed in 2025: the age is
`max(1, 2025 - 2020 + 1)`. -/
theorem C3_impact_age_amended_witness :
    pyAge 2025 (.int 2020) = max 1 (2025 - 2020 + 1) :=
  (C3_impact_age_amended 2025 (.int 3) (.int 2020)).2.2.2.1 2020 rfl
    (by norm_num) (by norm_num)

/-- C8 is falsified by a negative citation count: the code coerces with
`float(...)` but never clamps, so -5 citations in year 2024 (processed
in 2025) store a negative `citations_per_year` of -5/2. -/
theorem C8_counterexample :
    impact_score 2025 (.int (-5)) (.int 2024) = -5 / 2 ∧
    impact_score 2025 (.int (-5)) (.int 2024) < 0 := by
  norm_num [impact_score, pyAge, pyFloat, pyInt]

/-- C8 (amended): the scorer coerces the citation count to a real,
with malformed input (where `float(...)` raises) degrading to a score
of exactly 0; the coerced value is not clamped, so the stored
`citations_per_year` is non-negative whenever the coerced citation
count is non-negative (and only then, when the year is fixed). -/
theorem C8_citations_coercion_amended (current_year : ℤ) (citations year : PyVal) :
    (∀ e, pyFloat citations = .error e → impact_score current_year citations year = 0) ∧
    (∀ q : ℚ, pyFloat citations = .ok q → 0 ≤ q →
      0 ≤ impact_score current_year citations year) := by
  constructor
  · intro e he
    unfold impact_score
    rw [he]
    simp
  · intro q hq hq0
    unfold impact_score
    rw [hq]
    have hpos : (0 : ℚ) ≤ ((pyAge current_year year : ℤ) : ℚ) := by
      exact_mod_cast (pyAge_pos current_year year).le
    exact div_nonneg hq0 hpos

/-- Witness for C8 (amended): a list-valued citation count (on which
`float(...)` raises) scores exactly 0. -/
theorem C8_citations_coercion_amended_witness :
    impact_score 2025 (.list [.int 3]) (.int 2024) = 0 :=
  (C8_citations_coercion_amended 2025 (.list [.int 3]) (.int 2024)).1 .typeError rfl

/-! ### Sortedness of the rebuilt abstract's position order -/

theorem mem_insPair {x a : ℚ × String} {l : List (ℚ × String)}
    (h : a ∈ insPair x l) : a = x ∨ a ∈ l := by
  induction l with
  | nil => simpa [insPair] using h
  | cons y ys ih =>
      unfold insPair at h
      split_ifs at h with hy
      · rcases List.mem_cons.mp h with h1 | h1
        · exact Or.inr (List.mem_cons.mpr (Or.inl h1))
        · rcases ih h1 with h2 | h2
          · exact Or.inl h2
          · exact Or.inr (List.mem_cons.mpr (Or.inr h2))
      · rcases List.mem_cons.mp h with h1 | h1
        · exact Or.inl h1
        · exact Or.inr h1

theorem pairwise_insPair {x : ℚ × String} {l : List (ℚ × String)}
    (h : l.Pairwise (fun a b => a.1 ≤ b.1)) :
    (insPair x l).Pairwise (fun a b => a.1 ≤ b.1) := by
  induction l with
  | nil => simp [insPair]
  | cons y ys ih =>
      rcases List.pairwise_cons.mp h with ⟨hy, hys⟩
      unfold insPair
      split_ifs with hlt
      · refine List.pairwise_cons.mpr ⟨?_, ih hys⟩
        intro a ha
        rcases mem_insPair ha with h1 | h1
        · rw [h1]; exact hlt.le
        · exact hy a h1
      · refine List.pairwise_cons.mpr ⟨?_, h⟩
        intro a ha
        rcases List.mem_cons.mp ha with h1 | h1
        · rw [h1]; exact le_of_not_lt hlt
        · exact le_trans (le_of_not_lt hlt) (hy a h1)

theorem sortPairs_pairwise (l : List (ℚ × String)) :
    (sortPairs l).Pairwise (fun a b => a.1 ≤ b.1) := by
  induction l with
  | nil => simp [sortPairs]
  | cons x xs ih => exact pairwise_insPair ih

/-- C4: when the primary payload has no plain abstract but has an
inverted index, the rebuilt abstract pairs each occurrence with its
position, sorts ascending by position (`sortPairs` always yields a
position-sorted list), and joins words with single spaces: on the
spec's example index the reconstruction — and the abstract resolved by
the document builder — is exactly "We soils study". -/
theorem C4_abstract_reconstruction :
    (∀ l : List (ℚ × String), (sortPairs l).Pairwise (fun a b => a.1 ≤ b.1)) ∧
    _reconstruct_abstract
      (.dict [("We", .list [.int 0]), ("study", .list [.int 2]),
        ("soils", .list [.int 1])]) = .ok "We soils study" ∧
    (build_paper_document 2025
        [("abstract_inverted_index",
          .dict [("We", .list [.int 0]), ("study", .list [.int 2]),
            ("soils", .list [.int 1])])] [] []).map
      (fun d => d.content.abstract) = .ok (.str "We soils study") := by
  refine ⟨sortPairs_pairwise, rfl, rfl⟩

/-! ### Repository upsert claims -/

/-- C10: a batch document whose `_id` is absent or falsy is silently
skipped by `if not _id: continue`: processing the batch with it is the
same as processing the batch without it — the store is unchanged for
it, no counter moves, and it can contribute no failure. -/
theorem C10_falsy_id_skipped (raisesOn : PyVal → Bool) (st : Store) (doc : PyDict)
    (rest : List PyDict) (h : pyTruthy (dictGet doc "_id") = false) :
    upsert_to_db raisesOn st (doc :: rest) = upsert_to_db raisesOn st rest ∧
    failedCount raisesOn (doc :: rest) = failedCount raisesOn rest := by
  constructor
  · unfold upsert_to_db
    rw [List.foldl_cons]
    simp [h]
  · unfold failedCount
    rw [List.filter_cons]
    simp [h]

/-- Witness for C10: a document with the falsy id `""` is skipped. -/
theorem C10_falsy_id_skipped_witness :
    upsert_to_db (fun _ => false) [] [[("_id", .str "")]] =
      upsert_to_db (fun _ => false) [] [] ∧
    failedCount (fun _ => false) [[("_id", .str "")]] =
      failedCount (fun _ => false) [] :=
  C10_falsy_id_skipped (fun _ => false) [] [("_id", .str "")] [] (by decide)

/-- C6: upserting one canonical record (truthy `_id`) twice into an
initially-empty store (with a store that does not raise) reports one
insert and no update on the first call, no insert and one update on the
second, and leaves exactly one document under that identifier. -/
theorem C6_upsert_idempotent (doc : PyDict) (idv : PyVal)
    (hid : dictGet doc "_id" = idv) (ht : pyTruthy idv = true) :
    (upsert_to_db (fun _ => false) [] [doc]).2 = (1, 0) ∧
    (upsert_to_db (fun _ => false)
      (upsert_to_db (fun _ => false) [] [doc]).1 [doc]).2 = (0, 1) ∧
    countKey (upsert_to_db (fun _ => false)
      (upsert_to_db (fun _ => false) [] [doc]).1 [doc]).1 idv = 1 := by
  have h1 : upsert_to_db (fun _ => false) [] [doc] = ([(idv, doc)], 1, 0) := by
    unfold upsert_to_db
    simp [hid, ht, replace_one]
  have h2 : upsert_to_db (fun _ => false) [(idv, doc)] [doc] = ([(idv, doc)], 0, 1) := by
    unfold upsert_to_db
    simp [hid, ht, replace_one]
  rw [h1]
  refine ⟨rfl, ?_, ?_⟩
  · show (upsert_to_db (fun _ => false) [(idv, doc)] [doc]).2 = (0, 1)
    rw [h2]
  · show countKey (upsert_to_db (fun _ => false) [(idv, doc)] [doc]).1 idv = 1
    rw [h2]
    simp [countKey]

/-- Witness for C6 on a concrete record with id "W1". -/
theorem C6_upsert_idempotent_witness :
    (upsert_to_db (fun _ => false) [] [[("_id", .str "W1")]]).2 = (1, 0) ∧
    (upsert_to_db (fun _ => false)
      (upsert_to_db (fun _ => false) [] [[("_id", .str "W1")]]).1
      [[("_id", .str "W1")]]).2 = (0, 1) ∧
    countKey (upsert_to_db (fun _ => false)
      (upsert_to_db (fun _ => false) [] [[("_id", .str "W1")]]).1
      [[("_id", .str "W1")]]).1 (.str "W1") = 1 :=
  C6_upsert_idempotent [("_id", .str "W1")] (.str "W1") rfl (by decide)

/-- C7 is falsified in its reporting half: the batch-level report is the
bare `(inserted, updated)` pair, with no failed count — the run where
the store raises on the middle record of a 3-record batch returns the
very same report `(2, 0)` as a clean 2-record run with zero failures,
so the report does not distinguish the failed count (here 1 vs 0). -/
theorem C7_counterexample :
    (upsert_to_db (fun i => i == .str "b") []
      [[("_id", .str "a")], [("_id", .str "b")], [("_id", .str "c")]]).2 =
      (upsert_to_db (fun _ => false) [] [[("_id", .str "a")], [("_id", .str "c")]]).2 ∧
    failedCount (fun i => i == .str "b")
      [[("_id", .str "a")], [("_id", .str "b")], [("_id", .str "c")]] = 1 ∧
    failedCount (fun _ => false) [[("_id", .str "a")], [("_id", .str "c")]] = 0 := by
  refine ⟨rfl, rfl, rfl⟩

/-- C7 (amended): if the store raises on one record of a 3-record batch,
the other two are still persisted and counted (no total abort); the
failure is printed per record but the batch report carries only the
inserted and updated counts, not a failed count. -/
theorem C7_partial_failure_amended (raisesOn : PyVal → Bool) (d1 d2 d3 : PyDict)
    (id1 id2 id3 : PyVal)
    (h1 : dictGet d1 "_id" = id1) (h2 : dictGet d2 "_id" = id2)
    (h3 : dictGet d3 "_id" = id3)
    (t1 : pyTruthy id1 = true) (t2 : pyTruthy id2 = true) (t3 : pyTruthy id3 = true)
    (f1 : raisesOn id1 = false) (f2 : raisesOn id2 = true) (f3 : raisesOn id3 = false)
    (ne31 : id3 ≠ id1) :
    upsert_to_db raisesOn [] [d1, d2, d3] = ([(id1, d1), (id3, d3)], 2, 0) ∧
    failedCount raisesOn [d1, d2, d3] = 1 := by
  constructor
  · have ne13 : id1 ≠ id3 := ne31.symm
    unfold upsert_to_db
    simp [h1, h2, h3, t1, t2, t3, f1, f2, f3, replace_one, ne31, ne13]
  · unfold failedCount
    simp [h1, h2, h3, t1, t2, t3, f1, f2, f3]

/-- Witness for C7 (amended) on a concrete 3-record batch failing on the
middle record. -/
theorem C7_partial_failure_amended_witness :
    upsert_to_db (fun i => i == .str "b") []
      [[("_id", .str "a")], [("_id", .str "b")], [("_id", .str "c")]] =
      ([(.str "a", [("_id", .str "a")]), (.str "c", [("_id", .str "c")])], 2, 0) ∧
    failedCount (fun i => i == .str "b")
      [[("_id", .str "a")], [("_id", .str "b")], [("_id", .str "c")]] = 1 :=
  C7_partial_failure_amended (fun i => i == .str "b")
    [("_id", .str "a")] [("_id", .str "b")] [("_id", .str "c")]
    (.str "a") (.str "b") (.str "c")
    rfl rfl rfl (by decide) (by decide) (by decide)
    rfl rfl rfl (by decide)

/-! ### Identifier normalization claims -/

theorem list_map_self {f : Char → Char} :
    ∀ l : List Char, (∀ c ∈ l, f c = c) → l.map f = l := by
  intro l h
  induction l with
  | nil => rfl
  | cons c cs ih =>
      simp only [List.map_cons]
      rw [h c (List.mem_cons_self c cs), ih (fun x hx => h x (List.mem_cons_of_mem c hx))]

theorem delOccAux_of_not_contains (p0 : Char) (ps : List Char) :
    ∀ (fuel : ℕ) (l : List Char),
      containsSub (p0 :: ps) l = false → l.length ≤ fuel →
      delOccAux p0 ps fuel l = l := by
  intro fuel
  induction fuel with
  | zero =>
      intro l h hlen
      cases l with
      | nil => rfl
      | cons c rest => simp at hlen
  | succ f ih =>
      intro l h hlen
      cases l with
      | nil => rfl
      | cons c rest =>
          simp only [containsSub, Bool.or_eq_false_iff] at h
          simp only [delOccAux, h.1, Bool.false_eq_true, if_false]
          rw [ih rest h.2 (by simpa using hlen)]

theorem delOcc_of_not_contains (p : List Char) (l : List Char)
    (h : containsSub p l = false) : delOcc p l = l := by
  cases p with
  | nil => rfl
  | cons p0 ps => exact delOccAux_of_not_contains p0 ps l.length l h le_rfl

/-- C5 is falsified: normalization is not idempotent on every identifier
string.  On "a https://doi.org/" one pass deletes the embedded resolver
prefix, leaving the trailing space in "a "; normalizing that output
strips the space, giving "a" ≠ "a ". -/
theorem C5_counterexample :
    normalize_doi (.str "a https://doi.org/") = .ok (.str "a ") ∧
    normalize_doi (.str "a ") = .ok (.str "a") ∧
    PyVal.str "a " ≠ PyVal.str "a" := by
  refine ⟨rfl, rfl, by decide⟩

/-- C5 (amended): normalization is a no-op — hence idempotent — on every
already-normalized bare identifier (nonempty, already lowercase, no
surrounding whitespace, no occurrence of either resolver prefix), and
absent or empty input yields absent (`None`) without error. -/
theorem C5_normalize_doi_amended (s : String)
    (hne : s ≠ "")
    (hlow : ∀ c ∈ s.toList, Char.toLower c = c)
    (hstrip : pyStrip s.toList = s.toList)
    (hno1 : containsSub "https://doi.org/".toList s.toList = false)
    (hno2 : containsSub "http://doi.org/".toList s.toList = false) :
    normalize_doi (.str s) = .ok (.str s) ∧
    normalize_doi .none = .ok .none ∧
    normalize_doi (.str "") = .ok .none := by
  refine ⟨?_, rfl, rfl⟩
  unfold normalize_doi
  have ht : pyTruthy (.str s) = true := by simp [pyTruthy, hne]
  rw [ht]
  simp only [Bool.true_eq_false, if_false]
  rw [list_map_self s.toList hlow, hstrip,
    delOcc_of_not_contains _ _ hno1, delOcc_of_not_contains _ _ hno2]
  rfl

/-- Witness for C5 (amended) on the bare identifier "10.1234/abc". -/
theorem C5_normalize_doi_amended_witness :
    normalize_doi (.str "10.1234/abc") = .ok (.str "10.1234/abc") ∧
    normalize_doi .none = .ok .none ∧
    normalize_doi (.str "") = .ok .none :=
  C5_normalize_doi_amended "10.1234/abc" (by decide) (by decide) (by decide)
    (by decide) (by decide)

/-! ### Success lemmas: every step is total on documented shapes -/

theorem mapM_ok {α β : Type} (f : α → Except PyErr β) :
    ∀ l : List α, (∀ a ∈ l, ∃ b, f a = .ok b) → ∃ bs, l.mapM f = .ok bs := by
  intro l
  induction l with
  | nil => intro _; exact ⟨[], rfl⟩
  | cons a as ih =>
      intro h
      obtain ⟨b, hb⟩ := h a (List.mem_cons_self a as)
      obtain ⟨bs, hbs⟩ := ih (fun x hx => h x (List.mem_cons_of_mem a hx))
      refine ⟨b :: bs, ?_⟩
      rw [List.mapM_cons, hb, exceptBind_ok, hbs, exceptBind_ok]
      rfl

theorem foldlM_ok {α β : Type} (g : β → α → Except PyErr β) :
    ∀ (l : List α) (acc : β),
      (∀ a ∈ l, ∀ b, ∃ c, g b a = .ok c) → ∃ r, l.foldlM g acc = .ok r := by
  intro l
  induction l with
  | nil => intro acc _; exact ⟨acc, rfl⟩
  | cons a as ih =>
      intro acc h
      obtain ⟨c, hc⟩ := h a (List.mem_cons_self a as) acc
      obtain ⟨r, hr⟩ := ih c (fun x hx => h x (List.mem_cons_of_mem a hx))
      exact ⟨r, by rw [List.foldlM_cons, hc, exceptBind_ok, hr]⟩

theorem isNumeric_pyInt_ok (v : PyVal) (h : isNumeric v = true) :
    ∃ n : ℤ, pyInt v = .ok n := by
  cases v <;> simp [isNumeric] at h <;> exact ⟨_, rfl⟩

theorem isStrOrFalsy_pyOr_str (v : PyVal) (dflt : String)
    (h : isStrOrFalsy v = true) : ∃ s, pyOr v (.str dflt) = .str s := by
  cases ht : pyTruthy v
  · exact ⟨dflt, by simp [pyOr, ht]⟩
  · cases v <;> simp_all [isStrOrFalsy, pyOr]

theorem dictOrFalsy_pyOr_dict (v : PyVal) (h : dictOrFalsy v = true) :
    ∃ es : PyDict, pyOr v (.dict []) = .dict es := by
  cases ht : pyTruthy v
  · exact ⟨[], by simp [pyOr, ht]⟩
  · cases v <;> simp_all [dictOrFalsy, pyOr]

theorem normalize_doi_ok (v : PyVal) (h : isStrOrFalsy v = true) :
    ∃ r, normalize_doi v = .ok r := by
  cases ht : pyTruthy v
  · exact ⟨.none, by simp [normalize_doi, ht]⟩
  · have hs : ∃ s, v = .str s := by
      cases v <;> simp_all [isStrOrFalsy]
    obtain ⟨s, rfl⟩ := hs
    exact ⟨_, by unfold normalize_doi; rw [ht]; rfl⟩

theorem pyIndex0_pyOr_ok (v : PyVal) (h : idxableOK v = true) :
    ∃ r, pyIndex0 (pyOr v (.list [.none])) = .ok r := by
  cases ht : pyTruthy v
  · exact ⟨.none, by simp [pyOr, ht, pyIndex0]⟩
  · have hv : (∃ l, v = .list l) ∨ (∃ s, v = .str s) := by
      cases v <;> simp_all [idxableOK]
    rcases hv with ⟨l, rfl⟩ | ⟨s, rfl⟩
    · cases l with
      | nil => simp [pyTruthy] at ht
      | cons x xs => exact ⟨x, by simp [pyOr, ht, pyIndex0]⟩
    · have hs : s.toList ≠ [] := by
        intro hnil
        have : s = String.mk s.toList := rfl
        rw [hnil] at this
        subst this
        simp [pyTruthy] at ht
      cases hl : s.toList with
      | nil => exact absurd hl hs
      | cons c cs =>
          refine ⟨.str (String.mk [c]), ?_⟩
          simp only [pyOr, ht, if_true, pyIndex0]
          rw [hl]

theorem journal_name_step_ok (work crossref : PyDict)
    (h : idxableOK (dictGet crossref "container-title") = true) :
    ∃ r, journal_name_step work crossref = .ok r := by
  simp only [journal_name_step]
  split_ifs
  · exact ⟨_, rfl⟩
  · exact ⟨_, rfl⟩
  · exact pyIndex0_pyOr_ok _ h

theorem issn_step_ok (work crossref : PyDict)
    (h : idxableOK (dictGet crossref "ISSN") = true) :
    ∃ r, issn_step work crossref = .ok r := by
  simp only [issn_step]
  split_ifs
  · exact ⟨_, rfl⟩
  · exact ⟨_, rfl⟩
  · exact pyIndex0_pyOr_ok _ h

theorem headDict_pyOr (v : PyVal) (h : headDictOK v = true) :
    pyOr v (.list []) = .list [] ∨
      ∃ ds tl, pyOr v (.list []) = .list (.dict ds :: tl) := by
  cases ht : pyTruthy v
  · left; simp [pyOr, ht]
  · right
    cases v <;> simp_all [headDictOK]
    case list l =>
      cases l with
      | nil => simp [pyTruthy] at ht
      | cons x xs =>
          cases x <;> simp_all [pyOr, ht]

theorem processAuthorship_ok (a : PyVal) (h : authorshipOK a = true) :
    ∃ r, processAuthorship a = .ok r := by
  cases a <;> simp [authorshipOK] at h
  case dict es =>
    obtain ⟨hau, hin⟩ := h
    obtain ⟨es1, he1⟩ := dictOrFalsy_pyOr_dict _ hau
    unfold processAuthorship
    simp only [aget, exceptBind_ok, he1]
    rcases headDict_pyOr _ hin with he2 | ⟨ds, tl, he2⟩
    · simp only [he2, pyTruthy, List.isEmpty_nil, Bool.not_true, Bool.false_eq_true,
        if_false, pure, Except.pure, exceptBind_ok]
      split
      · exact ⟨_, rfl⟩
      · exact ⟨_, rfl⟩
    · simp only [he2, pyTruthy, List.isEmpty_cons, Bool.not_false, if_true,
        pyIndex0, aget, exceptBind_ok]
      split
      · exact ⟨_, rfl⟩
      · exact ⟨_, rfl⟩

theorem processCrossrefAuthor_ok (a : PyVal) (h : crAuthorOK a = true) :
    ∃ r, processCrossrefAuthor a = .ok r := by
  cases a <;> simp [crAuthorOK] at h
  case dict es =>
    unfold processCrossrefAuthor
    simp only [agetD, aget, exceptBind_ok]
    rcases headDict_pyOr _ h with he2 | ⟨ds, tl, he2⟩
    · simp only [he2, pyTruthy, List.isEmpty_nil, Bool.not_true, Bool.false_eq_true,
        if_false, pure, Except.pure, exceptBind_ok]
      split
      · exact ⟨_, rfl⟩
      · exact ⟨_, rfl⟩
    · simp only [he2, pyTruthy, List.isEmpty_cons, Bool.not_false, if_true,
        pyIndex0, aget, exceptBind_ok]
      split
      · exact ⟨_, rfl⟩
      · exact ⟨_, rfl⟩

theorem extract_authors_ok (work crossref : PyDict)
    (ha : authorshipsOK (dictGet work "authorships") = true)
    (hc : crAuthorsOK (dictGet crossref "author") = true) :
    ∃ l, _extract_authors work crossref = .ok l := by
  have hbase : ∃ es, pyOr (dictGet work "authorships") (.list []) = .list es ∧
      es.all authorshipOK = true := by
    cases ht : pyTruthy (dictGet work "authorships")
    · exact ⟨[], by simp [pyOr, ht], rfl⟩
    · rcases hv : dictGet work "authorships" with _ | _ | _ | _ | _ | l | _ <;>
        rw [hv] at ht ha <;> simp_all [authorshipsOK, pyOr]
  obtain ⟨es, hes, hall⟩ := hbase
  have hcbase : ∃ cs, pyOr (dictGet crossref "author") (.list []) = .list cs ∧
      cs.all crAuthorOK = true := by
    cases ht : pyTruthy (dictGet crossref "author")
    · exact ⟨[], by simp [pyOr, ht], rfl⟩
    · rcases hv : dictGet crossref "author" with _ | _ | _ | _ | _ | l | _ <;>
        rw [hv] at ht hc <;> simp_all [crAuthorsOK, pyOr]
  obtain ⟨cs, hcs, hcall⟩ := hcbase
  obtain ⟨opts, hopts⟩ := mapM_ok processAuthorship es
    (fun a hma => processAuthorship_ok a
      (by exact List.all_eq_true.mp hall a hma))
  obtain ⟨copts, hcopts⟩ := mapM_ok processCrossrefAuthor cs
    (fun a hma => processCrossrefAuthor_ok a
      (by exact List.all_eq_true.mp hcall a hma))
  unfold _extract_authors
  rw [hes]
  simp only [pyIter, exceptBind_ok, hopts, hcs, hcopts]
  split
  · exact ⟨_, rfl⟩
  · exact ⟨_, rfl⟩

theorem posKey_ok (v : PyVal) (h : isNumeric v = true) : ∃ q, posKey v = .ok q := by
  cases v <;> simp [isNumeric] at h <;> exact ⟨_, rfl⟩

theorem reconstruct_ok (v : PyVal) (h : invIdxOK v = true) :
    ∃ s, _reconstruct_abstract v = .ok s := by
  cases ht : pyTruthy v
  · exact ⟨"", by simp [_reconstruct_abstract, ht]⟩
  · have hv : ∃ es, v = .dict es := by
      cases v <;> simp_all [invIdxOK]
    obtain ⟨es, rfl⟩ := hv
    have hall : es.all (fun e => posListOK e.2) = true := by
      unfold invIdxOK at h
      rw [ht] at h
      simpa using h
    have hfold : ∃ r, es.foldlM
        (fun (acc : List (ℚ × String)) (e : String × PyVal) => do
          let elems ← pyIter e.2
          let keys ← elems.mapM posKey
          pure (acc ++ keys.map (fun q => (q, e.1))))
        [] = .ok r := by
      refine foldlM_ok _ es [] ?_
      intro e hme acc
      have hpl : posListOK e.2 = true := by
        have := List.all_eq_true.mp hall e hme
        simpa using this
      have hl : ∃ l, e.2 = .list l ∧ l.all isNumeric = true := by
        rcases hv2 : e.2 with _ | _ | _ | _ | _ | l | _ <;> rw [hv2] at hpl <;>
          simp only [posListOK, Bool.false_eq_true] at hpl
        exact ⟨_, rfl, hpl⟩
      obtain ⟨l, hel, hln⟩ := hl
      obtain ⟨ks, hks⟩ := mapM_ok posKey l
        (fun x hmx => posKey_ok x (by simpa using List.all_eq_true.mp hln x hmx))
      rw [hel]
      simp only [pyIter, exceptBind_ok, hks]
      exact ⟨_, rfl⟩
    obtain ⟨r, hr⟩ := hfold
    unfold _reconstruct_abstract
    rw [ht]
    simp only [Bool.true_eq_false, if_false, hr, exceptBind_ok]
    exact ⟨_, rfl⟩

theorem abstract_step_ok (work crossref : PyDict)
    (h : invIdxOK (dictGet work "abstract_inverted_index") = true) :
    ∃ r, abstract_step work crossref = .ok r := by
  obtain ⟨s, hs⟩ := reconstruct_ok _ h
  simp only [abstract_step]
  split
  · exact ⟨_, rfl⟩
  · simp only [hs, exceptBind_ok]
    split
    · exact ⟨_, rfl⟩
    · split
      · exact ⟨_, rfl⟩
      · exact ⟨_, rfl⟩

theorem influential_step_ok (work : PyDict)
    (h : countsOK (dictGet work "counts_by_year") = true) :
    ∃ n, influential_step (pyOr (dictGet work "counts_by_year") (.list [])) = .ok n := by
  cases ht : pyTruthy (dictGet work "counts_by_year")
  · have hor : pyOr (dictGet work "counts_by_year") (.list []) = .list [] := by
      simp [pyOr, ht]
    rw [hor]
    exact ⟨0, rfl⟩
  · have hor : pyOr (dictGet work "counts_by_year") (.list []) =
        dictGet work "counts_by_year" := by simp [pyOr, ht]
    rw [hor]
    rcases hv : dictGet work "counts_by_year" with _ | _ | _ | _ | _ | l | _ <;>
      try exact ⟨0, rfl⟩
    rw [hv] at h
    cases l with
    | nil => exact ⟨0, rfl⟩
    | cons x xs =>
        simp only [countsOK] at h
        have hd : ∃ les, (x :: xs).getLast (List.cons_ne_nil x xs) = .dict les ∧
            isNumeric (dictGetD les "cited_by_count" (.int 0)) = true := by
          rcases hlast : (x :: xs).getLast (List.cons_ne_nil x xs) with
            _ | _ | _ | _ | _ | _ | les <;> rw [hlast] at h <;>
            simp only [Bool.false_eq_true] at h
          exact ⟨_, rfl, h⟩
        obtain ⟨les, hlast, hnum⟩ := hd
        obtain ⟨m, hm⟩ := isNumeric_pyInt_ok _ hnum
        unfold influential_step
        dsimp only
        rw [hlast]
        simp only [agetD, exceptBind_ok, hm]
        exact ⟨m, rfl⟩

theorem tags_step_ok (work : PyDict)
    (h : conceptsOK (dictGet work "concepts") = true) :
    ∃ l, tags_step work = .ok l := by
  have hbase : ∃ es, pyOr (dictGet work "concepts") (.list []) = .list es ∧
      ∀ c ∈ es, ∃ d, c = PyVal.dict d := by
    cases ht : pyTruthy (dictGet work "concepts")
    · exact ⟨[], by simp [pyOr, ht], by simp⟩
    · have hv : ∃ l, dictGet work "concepts" = .list l := by
        cases hv2 : dictGet work "concepts" <;> rw [hv2] at ht h <;>
          simp_all [conceptsOK]
      obtain ⟨l, hl⟩ := hv
      have hall : l.all
          (fun c => match c with | PyVal.dict _ => true | _ => false) = true := by
        rw [hl] at h ht
        unfold conceptsOK at h
        rw [ht] at h
        simpa using h
      refine ⟨l, by simp [pyOr, hl, hl ▸ ht], fun c hmc => ?_⟩
      have := List.all_eq_true.mp hall c hmc
      cases c <;> simp_all
  obtain ⟨es, hes, hdicts⟩ := hbase
  obtain ⟨vals, hvals⟩ := mapM_ok (fun c => aget c "display_name") es
    (fun c hmc => by
      obtain ⟨d, rfl⟩ := hdicts c hmc
      exact ⟨_, rfl⟩)
  unfold tags_step
  rw [hes]
  simp only [pyIter, exceptBind_ok, hvals]
  exact ⟨_, rfl⟩

theorem work_id_step_ok (oid doi : PyVal) (raw : PyVal)
    (h : isStrOrFalsy raw = true) :
    ∃ r, work_id_step oid doi (pyOr raw (.str "<no title>")) = .ok r := by
  obtain ⟨s, hs⟩ := isStrOrFalsy_pyOr_str raw "<no title>" h
  rw [hs]
  unfold work_id_step
  split_ifs
  · exact ⟨_, rfl⟩
  · exact ⟨_, rfl⟩
  · exact ⟨_, rfl⟩

theorem year_field_step_ok (year : PyVal) (h : isNumOrFalsy year = true) :
    ∃ r, year_field_step year = .ok r := by
  cases ht : pyTruthy year
  · exact ⟨Option.none, by unfold year_field_step; rw [ht]; rfl⟩
  · have hn : isNumeric year = true := by
      unfold isNumOrFalsy at h
      rw [ht] at h
      simpa using h
    obtain ⟨n, hn2⟩ := isNumeric_pyInt_ok year hn
    refine ⟨some n, ?_⟩
    unfold year_field_step
    rw [ht]
    simp only [if_true, hn2, exceptBind_ok]
    rfl

theorem pyInt_citations_ok (raw : PyVal) (h : isNumOrFalsy raw = true) :
    ∃ n, pyInt (pyOr raw (.int 0)) = .ok n := by
  cases ht : pyTruthy raw
  · exact ⟨0, by simp [pyOr, ht, pyInt]⟩
  · have hn : isNumeric raw = true := by
      unfold isNumOrFalsy at h
      rw [ht] at h
      simpa using h
    have hor : pyOr raw (.int 0) = raw := by simp [pyOr, ht]
    rw [hor]
    exact isNumeric_pyInt_ok raw hn

/-! ### C1 and C9: the document builder -/

/-- C1 is falsified: the builder is not total over loosely-typed input.
With a primary payload whose `publication_year` is the non-numeric
string "n/a" (and every other field absent), the scoring helper survives
(its `int(...)` is guarded), but the unguarded `int(year)` on the
`"year"` field of the output dict raises `ValueError`, which propagates
out of `build_paper_document`. -/
theorem C1_counterexample :
    build_paper_document 2025 [("publication_year", .str "n/a")] [] [] =
      .error .valueError ∧
    impact_score 2025 (.int 0) (.str "n/a") = 0 := by
  refine ⟨rfl, ?_⟩
  have hage : pyAge 2025 (PyVal.str "n/a") = 1 := rfl
  have hfl : pyFloat (PyVal.int 0) = .ok 0 := rfl
  simp [impact_score, hage, hfl]

/-- C1 (amended): the scoring helpers (`impact_score`,
`classify_impact`, `determine_processing_status`, `_safe_get`) are total
by construction, and `build_paper_document` returns a document (raises
no exception) for every payload triple whose present fields have their
documented shapes (`wfPayloads`): numeric-or-absent year and citation
fields, string-or-absent doi and title, list-shaped author/concept/
inverted-index/counts structures; fields of unexpected type can make it
raise, as the counterexample shows. -/
theorem C1_build_total_amended (current_year : ℤ) (work crossref unpaywall : PyDict)
    (h : wfPayloads work crossref unpaywall = true) :
    ∃ doc, build_paper_document current_year work crossref unpaywall = .ok doc := by
  simp only [wfPayloads, Bool.and_eq_true] at h
  obtain ⟨⟨⟨⟨⟨⟨⟨⟨⟨⟨h1, h2⟩, h3⟩, h4⟩, h5⟩, h6⟩, h7⟩, h8⟩, h9⟩, h10⟩, h11⟩ := h
  obtain ⟨d, hd⟩ := normalize_doi_ok _ h1
  obtain ⟨au, hau⟩ := extract_authors_ok work crossref h5 h6
  obtain ⟨jn, hjn⟩ := journal_name_step_ok work crossref h7
  obtain ⟨sn, hsn⟩ := issn_step_ok work crossref h8
  obtain ⟨ab, hab⟩ := abstract_step_ok work crossref h9
  obtain ⟨infl, hinfl⟩ := influential_step_ok work h10
  obtain ⟨tg, htg⟩ := tags_step_ok work h11
  obtain ⟨wid, hwid⟩ := work_id_step_ok (dictGet work "id") d _ h2
  obtain ⟨yo, hyo⟩ := year_field_step_ok _ h3
  obtain ⟨cc, hcc⟩ := pyInt_citations_ok _ h4
  simp only [build_paper_document, exceptBind_ok_iff, pure, Except.pure,
    Except.ok.injEq]
  exact ⟨_, d, hd, au, hau, jn, hjn, sn, hsn, ab, hab, infl, hinfl, tg, htg,
    wid, hwid, yo, hyo, cc, hcc, rfl⟩

/-- Witness for C1 (amended): the empty payloads are well-formed and the
builder succeeds on them. -/
theorem C1_build_total_amended_witness :
    (build_paper_document 2025 [] [] []).isOk = true := by
  obtain ⟨doc, hdoc⟩ := C1_build_total_amended 2025 [] [] [] (by decide)
  rw [hdoc]
  rfl

/-- C9: whenever the builder produces a document, the stored
`impact.classification` is exactly `classify_impact` applied to the
stored `impact.citations_per_year` — the two fields are consistent by
construction in every produced document. -/
theorem C9_classification_consistent (current_year : ℤ)
    (work crossref unpaywall : PyDict) (doc : PaperRecord)
    (h : build_paper_document current_year work crossref unpaywall = .ok doc) :
    doc.impact.classification = classify_impact doc.impact.citations_per_year := by
  simp only [build_paper_document, exceptBind_ok_iff, pure, Except.pure,
    Except.ok.injEq] at h
  obtain ⟨d, hd, au, hau, jn, hjn, sn, hsn, ab, hab, infl, hinfl, tg, htg,
    wid, hwid, yo, hyo, cc, hcc, hdoc⟩ := h
  subst hdoc
  rfl

/-- Witness for C9 on the empty payloads. -/
theorem C9_classification_consistent_witness :
    ((build_paper_document 2025 [] [] []).toOption.getD
        ⟨.none, .none, Option.none, [], ⟨.none, .none⟩, ⟨0, 0, "", 0⟩,
          ⟨false, .none, .none⟩, ⟨.none, false, .none⟩, "", []⟩).impact.classification =
      classify_impact
        ((build_paper_document 2025 [] [] []).toOption.getD
          ⟨.none, .none, Option.none, [], ⟨.none, .none⟩, ⟨0, 0, "", 0⟩,
            ⟨false, .none, .none⟩, ⟨.none, false, .none⟩, "", []⟩).impact.citations_per_year :=
  C9_classification_consistent 2025 [] [] [] _ rfl
